import Mathlib

/-!
Verification of the core logic of `src/blackjack.py` (a console Blackjack
game).  The Python class `Blackjack` is shallowly embedded: its mutable
object state becomes the structure `GameState`, every method becomes a pure
function on that state, Python `int` becomes `ℤ`, Python lists become
`List`, and Python exceptions become `Except PyError`.
-/

/-- A playing card, embedding the Python `Card` dataclass
(`suit: str`, `number: int`). -/
structure Card where
  suit : String
  number : ℤ
deriving DecidableEq, Repr

/-- Errors.  `indexError` embeds Python's built-in `IndexError`, the only
exception the code in `src/blackjack.py` can actually raise (from
`list.pop()` on an empty list or from indexing out of range).  The other
three constructors are the error taxonomy named by the specification
(`EmptyDeckError`, `InvalidPlayerError`, `InvalidConfigError`); no such
classes exist anywhere in the source, and no code path produces them —
they are present only so that statements about them can be expressed. -/
inductive PyError where
  | indexError
  | emptyDeckError
  | invalidPlayerError
  | invalidConfigError
deriving DecidableEq, Repr

/-- The four suits, embedding `self._SUITS` from `Blackjack.__init__`. -/
def SUITS : List String := ["Spades", "Hearts", "Clubs", "Diamonds"]

/-- One 52-card deck: for each suit the cards numbered 1 through 13, in
order, embedding one iteration of the outer loop of
`Blackjack._create_stack` (`for suit in self._SUITS: the_list.extend(
[Card(suit, num) for num in range(1, 14)])`). -/
def oneDeck : List Card :=
  (SUITS.map (fun suit => (List.range' 1 13).map (fun num => Card.mk suit (num : ℤ)))).flatten

/-- The card stack built by `Blackjack._create_stack(num_decks)` before the
final `random.shuffle(the_list)`: `num_decks` copies of `oneDeck`,
concatenated.  `random.shuffle` permutes the list in place; it is modelled
by quantifying theorems over an arbitrary permutation. -/
def createStackBase (numDecks : Nat) : List Card :=
  (List.replicate numDecks oneDeck).flatten

/-- The mutable state of a `Blackjack` object: `_num_decks`,
`_num_players`, `_card_stack`, `_dealer_stack`, `_player_stacks`,
`_player_dones`, `_current_turn`, in declaration order. -/
structure GameState where
  numDecks : Nat
  numPlayers : Nat
  cardStack : List Card
  dealerStack : List Card
  playerStacks : List (List Card)
  playerDones : List Bool
  currentTurn : Nat
deriving DecidableEq, Repr

/-- `Blackjack.__init__(num_decks, num_players)`.  The constructor performs
no validation of its arguments; `shuffle` stands for the in-place
`random.shuffle` applied inside `_create_stack` (intended to be an
arbitrary permutation of its input). -/
def mkBlackjack (shuffle : List Card → List Card) (numDecks numPlayers : Nat) : GameState :=
  { numDecks := numDecks
    numPlayers := numPlayers
    cardStack := shuffle (createStackBase numDecks)
    dealerStack := []
    playerStacks := List.replicate numPlayers []
    playerDones := List.replicate numPlayers false
    currentTurn := 0 }

/-- `np.clip(x, a_min=1, a_max=self._MAX_ROYALTY)` applied to one entry
(`_MAX_ROYALTY = 10`). -/
def clip (x : ℤ) : ℤ := max 1 (min x 10)

/-- `Blackjack._calculate_no_aces(stack)`:
`np.clip(np.array(stack), a_min=1, a_max=10).sum()`. -/
def calculateNoAces (stack : List ℤ) : ℤ := (stack.map clip).sum

/-- The loop body state of `Blackjack.calculate_optimal_ace_sum`:
`remaining` iterations are left, `cardIdx` is the current loop index and
`aceSum` the accumulator.  Each step tests
`current_sum + ace_sum + self._ACE_HIGH <= target_sum - card_idx`
(`_ACE_HIGH = 11`, `_ACE_LOW = 1`). -/
def aceSumGo (currentSum targetSum : ℤ) : Nat → Nat → ℤ → ℤ
  | 0, _, aceSum => aceSum
  | remaining + 1, cardIdx, aceSum =>
    if currentSum + aceSum + 11 ≤ targetSum - (cardIdx : ℤ) then
      aceSumGo currentSum targetSum remaining (cardIdx + 1) (aceSum + 11)
    else
      aceSumGo currentSum targetSum remaining (cardIdx + 1) (aceSum + 1)

/-- `Blackjack.calculate_optimal_ace_sum(number_of_ace_cards, current_sum,
target_sum)`: `ace_sum = 0; for card_idx in range(number_of_ace_cards): ...`. -/
def calculateOptimalAceSum (numberOfAceCards : Nat) (currentSum targetSum : ℤ) : ℤ :=
  aceSumGo currentSum targetSum numberOfAceCards 0 0

/-- `len([idx for idx, card in enumerate(stack) if card.number == 1])`
from `Blackjack._calculate_stack_sum`. -/
def numAcesOf (stack : List Card) : Nat :=
  (stack.filter (fun c => c.number == 1)).length

/-- `[card.number for card in stack if card.number != 1]` from
`Blackjack._calculate_stack_sum`. -/
def nonAceNumbers (stack : List Card) : List ℤ :=
  (stack.filter (fun c => c.number != 1)).map (fun c => c.number)

/-- `sum_of_cards_without_ace` in `Blackjack._calculate_stack_sum`. -/
def nonAceSumOf (stack : List Card) : ℤ := calculateNoAces (nonAceNumbers stack)

/-- `Blackjack._calculate_stack_sum(stack)` (`_WINNING_SUM = 21`): the
hand evaluator. -/
def calculateStackSum (stack : List Card) : ℤ :=
  nonAceSumOf stack + calculateOptimalAceSum (numAcesOf stack) (nonAceSumOf stack) 21

/-- `Blackjack._draw_card`: `self._card_stack.pop()`.  Python's
`list.pop()` removes and returns the last element and raises `IndexError`
on an empty list. -/
def drawCard (deck : List Card) : Except PyError (Card × List Card) :=
  match deck.getLast? with
  | none => Except.error PyError.indexError
  | some c => Except.ok (c, deck.dropLast)

/-- `Blackjack.dealer_draw`: if the dealer's evaluated sum is below 17,
pop one card, append it to `_dealer_stack` and return `False`; otherwise
return `True` without touching any state (the `silent` flag and the
`print` calls have no effect on state and are not modelled). -/
def dealerDraw (s : GameState) : Except PyError (GameState × Bool) :=
  if calculateStackSum s.dealerStack < 17 then
    match drawCard s.cardStack with
    | Except.error e => Except.error e
    | Except.ok (c, deck') =>
      Except.ok ({ s with cardStack := deck', dealerStack := s.dealerStack ++ [c] }, false)
  else
    Except.ok (s, true)

/-- `Blackjack.player_draw(player_idx)`: pop one card, append it to
`self._player_stacks[player_idx]` and return it.  The method performs no
validation: it never consults `_player_dones`, and an out-of-range index
surfaces as Python's `IndexError` (after the card has already been
popped). -/
def playerDraw (s : GameState) (playerIdx : Nat) : Except PyError (GameState × Card) :=
  match drawCard s.cardStack with
  | Except.error e => Except.error e
  | Except.ok (c, deck') =>
    match s.playerStacks.get? playerIdx with
    | none => Except.error PyError.indexError
    | some stack =>
      Except.ok ({ s with cardStack := deck',
                          playerStacks := s.playerStacks.set playerIdx (stack ++ [c]) }, c)

/-- The player loop of `Blackjack.initial_deal`: `for player_idx in
range(self._num_players): for _ in range(2): self.player_draw(player_idx)`. -/
def dealToPlayers : List Nat → GameState → Except PyError GameState
  | [], s => Except.ok s
  | i :: rest, s =>
    match playerDraw s i with
    | Except.error e => Except.error e
    | Except.ok (s1, _) =>
      match playerDraw s1 i with
      | Except.error e => Except.error e
      | Except.ok (s2, _) => dealToPlayers rest s2

/-- `Blackjack.initial_deal`: two dealer draws (return values discarded)
followed by two draws for each player in index order. -/
def initialDeal (s : GameState) : Except PyError GameState :=
  match dealerDraw s with
  | Except.error e => Except.error e
  | Except.ok (s1, _) =>
    match dealerDraw s1 with
    | Except.error e => Except.error e
    | Except.ok (s2, _) => dealToPlayers (List.range s.numPlayers) s2

/-- `Blackjack._compute_winner(dealer_sum, player_sum)`, the outcome
resolver.  The strings are the code's own: `'NONE'` is the spec's `PUSH`,
`'DEALER'` is `DEALER_WINS`, `'PLAYER'` is `PLAYER_WINS`.  The chained
comparisons `21 > dealer_sum > player_sum` and
`dealer_sum < player_sum < 21` become conjunctions. -/
def computeWinner (dealerSum playerSum : ℤ) : String :=
  if dealerSum = 21 ∧ playerSum = 21 then "NONE"
  else if dealerSum = 21 then "DEALER"
  else if 21 > dealerSum ∧ dealerSum > playerSum then "DEALER"
  else if playerSum > 21 then "DEALER"
  else if playerSum = 21 then "PLAYER"
  else if dealerSum < playerSum ∧ playerSum < 21 then "PLAYER"
  else "NONE"

/-- All cards currently in play, as a multiset: the draw stack, the
dealer's stack and every player's stack together. -/
def allCards (s : GameState) : Multiset Card :=
  (s.cardStack : Multiset Card) + (s.dealerStack : Multiset Card)
    + (s.playerStacks.flatten : Multiset Card)

/-- Modelled from the spec: the sum of `min(rank, 10)` over the non-Ace
cards of a hand — the "non-Ace sum `s`" used by the spec's testable
properties (the code's `_calculate_no_aces` additionally clips below at 1,
which agrees with this on any card of rank at least 1). -/
def specNonAceSum (stack : List Card) : ℤ :=
  ((stack.filter (fun c => c.number != 1)).map (fun c => min c.number 10)).sum

/-- Modelled from the spec: `t` is the total of the hand under some
assignment of value 1 or 11 to each of its Aces (`k` Aces valued 11),
the non-Ace cards contributing the clipped non-Ace sum. -/
def isAceAssignmentTotal (stack : List Card) (t : ℤ) : Prop :=
  ∃ k : Nat, k ≤ numAcesOf stack ∧
    t = nonAceSumOf stack + (numAcesOf stack : ℤ) + 10 * (k : ℤ)

/-! ### Helper lemmas about the Ace-resolution loop -/

/-- Once the greedy test fails, it fails at every later iteration: the
accumulator only grows while the allowance `targetSum - cardIdx` shrinks,
so every remaining Ace is valued 1. -/
lemma aceSumGo_all_low (s : ℤ) (r : Nat) : ∀ (idx : Nat) (acc : ℤ),
    21 - (idx : ℤ) < s + acc + 11 → aceSumGo s 21 r idx acc = acc + r := by
  induction r with
  | zero => intro idx acc _; simp [aceSumGo]
  | succ n ih =>
    intro idx acc h
    have hcond : ¬ (s + acc + 11 ≤ 21 - (idx : ℤ)) := by omega
    rw [aceSumGo, if_neg hcond, ih (idx + 1) (acc + 1) (by push_cast; omega)]
    push_cast
    ring

/-- Closed form of `calculate_optimal_ace_sum` at target 21 for a
nonnegative current sum: with at least one Ace, the first Ace is valued
11 exactly when the non-Ace sum is at most 10, and every other Ace is
valued 1. -/
lemma calculateOptimalAceSum_21 (n : Nat) (s : ℤ) (hs : 0 ≤ s) :
    calculateOptimalAceSum n s 21 =
      if 1 ≤ n ∧ s ≤ 10 then 10 + (n : ℤ) else (n : ℤ) := by
  cases n with
  | zero => simp [calculateOptimalAceSum, aceSumGo]
  | succ m =>
    unfold calculateOptimalAceSum
    by_cases hle : s ≤ 10
    · have hcond : s + 0 + 11 ≤ 21 - ((0 : Nat) : ℤ) := by push_cast; omega
      rw [aceSumGo, if_pos hcond, aceSumGo_all_low s m (0 + 1) (0 + 11) (by push_cast; omega),
        if_pos ⟨Nat.le_add_left 1 m, hle⟩]
      push_cast
      ring
    · have hcond : ¬ (s + 0 + 11 ≤ 21 - ((0 : Nat) : ℤ)) := by push_cast; omega
      rw [aceSumGo, if_neg hcond, aceSumGo_all_low s m (0 + 1) (0 + 1) (by push_cast; omega),
        if_neg (fun h => hle h.2)]
      push_cast
      ring

/-- The clipped non-Ace sum is nonnegative (every clipped entry is at
least 1). -/
lemma nonAceSumOf_nonneg (stack : List Card) : 0 ≤ nonAceSumOf stack := by
  unfold nonAceSumOf calculateNoAces
  apply List.sum_nonneg
  intro x hx
  obtain ⟨y, -, rfl⟩ := List.mem_map.mp hx
  unfold clip
  have : (1 : ℤ) ≤ max 1 (min y 10) := le_max_left 1 (min y 10)
  omega

/-- Closed form of the hand evaluator `_calculate_stack_sum`: writing `s`
for the clipped non-Ace sum and `n` for the number of Aces, the result is
`s + n + 10` when `n ≥ 1` and `s ≤ 10`, and `s + n` otherwise. -/
lemma calculateStackSum_closed (stack : List Card) :
    calculateStackSum stack =
      if 1 ≤ numAcesOf stack ∧ nonAceSumOf stack ≤ 10
      then nonAceSumOf stack + (numAcesOf stack : ℤ) + 10
      else nonAceSumOf stack + (numAcesOf stack : ℤ) := by
  unfold calculateStackSum
  rw [calculateOptimalAceSum_21 _ _ (nonAceSumOf_nonneg stack)]
  by_cases h : 1 ≤ numAcesOf stack ∧ nonAceSumOf stack ≤ 10
  · rw [if_pos h, if_pos h]; ring
  · rw [if_neg h, if_neg h]

/-! ### Helper lemmas about the deck and the card multiset -/

/-- A successful `_draw_card` call means the deck ended with the returned
card and the rest of the deck is returned unchanged. -/
lemma drawCard_ok_iff {deck deck' : List Card} {c : Card} :
    drawCard deck = Except.ok (c, deck') ↔ deck = deck' ++ [c] := by
  constructor
  · intro h
    rcases List.eq_nil_or_concat' deck with rfl | ⟨l, b, rfl⟩
    · simp [drawCard] at h
    · rw [drawCard, List.getLast?_concat] at h
      simp only [Except.ok.injEq, Prod.mk.injEq] at h
      rw [h.1, ← h.2, List.dropLast_concat]
  · rintro rfl
    rw [drawCard, List.getLast?_concat, List.dropLast_concat]

/-- Appending a card to the stack at index `i` adds exactly that card to
the flattened multiset of all stacks. -/
lemma flatten_set_append (ls : List (List Card)) (i : Nat) (v : List Card)
    (h : ls.get? i = some v) (c : Card) :
    (((ls.set i (v ++ [c])).flatten : List Card) : Multiset Card)
      = (ls.flatten : Multiset Card) + {c} := by
  induction ls generalizing i with
  | nil => simp at h
  | cons hd tl ih =>
    cases i with
    | zero =>
      simp only [List.get?] at h
      injection h with h
      subst h
      simp only [List.set, List.flatten_cons, ← Multiset.coe_add, ← Multiset.coe_singleton]
      abel
    | succ j =>
      simp only [List.get?] at h
      simp only [List.set, List.flatten_cons, ← Multiset.coe_add, ih j h]
      abel

/-- A successful dealer draw preserves the combined multiset of cards in
play: the drawn card just moves from the deck to the dealer's stack. -/
lemma dealerDraw_allCards {s s' : GameState} {b : Bool}
    (h : dealerDraw s = Except.ok (s', b)) : allCards s' = allCards s := by
  unfold dealerDraw at h
  by_cases hlt : calculateStackSum s.dealerStack < 17
  · rw [if_pos hlt] at h
    cases hd : drawCard s.cardStack with
    | error e => rw [hd] at h; exact Except.noConfusion h
    | ok val =>
      obtain ⟨c, deck'⟩ := val
      rw [hd] at h
      injection h with h
      injection h with h1 h2
      subst h1
      have hdk : s.cardStack = deck' ++ [c] := drawCard_ok_iff.mp hd
      unfold allCards
      rw [hdk]
      simp only [← Multiset.coe_add, ← Multiset.coe_singleton]
      abel
  · rw [if_neg hlt] at h
    injection h with h
    injection h with h1 h2
    rw [← h1]

/-- A successful player draw preserves the combined multiset of cards in
play: the drawn card just moves from the deck to that player's stack. -/
lemma playerDraw_allCards {s s' : GameState} {idx : Nat} {c : Card}
    (h : playerDraw s idx = Except.ok (s', c)) : allCards s' = allCards s := by
  unfold playerDraw at h
  cases hd : drawCard s.cardStack with
  | error e => rw [hd] at h; exact Except.noConfusion h
  | ok val =>
    obtain ⟨c0, deck'⟩ := val
    rw [hd] at h
    cases hg : s.playerStacks.get? idx with
    | none => rw [hg] at h; exact Except.noConfusion h
    | some v =>
      rw [hg] at h
      injection h with h
      injection h with h1 h2
      rw [← h1]
      have hdk : s.cardStack = deck' ++ [c0] := drawCard_ok_iff.mp hd
      unfold allCards
      rw [hdk, flatten_set_append s.playerStacks idx v hg c0]
      simp only [← Multiset.coe_add, ← Multiset.coe_singleton]
      abel

/-- The initial player dealing loop preserves the combined multiset of
cards in play. -/
lemma dealToPlayers_allCards : ∀ (l : List Nat) (s s' : GameState),
    dealToPlayers l s = Except.ok s' → allCards s' = allCards s := by
  intro l
  induction l with
  | nil =>
    intro s s' h
    injection h with h
    rw [h]
  | cons i rest ih =>
    intro s s' h
    unfold dealToPlayers at h
    split at h
    next e heq => exact Except.noConfusion h
    next s1 c1 heq =>
      split at h
      next e heq2 => exact Except.noConfusion h
      next s2 c2 heq2 =>
        rw [ih s2 s' h, playerDraw_allCards heq2, playerDraw_allCards heq]

/-- `initial_deal` preserves the combined multiset of cards in play. -/
lemma initialDeal_allCards {s s' : GameState}
    (h : initialDeal s = Except.ok s') : allCards s' = allCards s := by
  unfold initialDeal at h
  split at h
  next e heq => exact Except.noConfusion h
  next s1 b1 heq =>
    split at h
    next e heq2 => exact Except.noConfusion h
    next s2 b2 heq2 =>
      rw [dealToPlayers_allCards _ _ _ h, dealerDraw_allCards heq2, dealerDraw_allCards heq]

/-- The unshuffled stack of `num_decks` decks has `num_decks * 52` cards. -/
lemma createStackBase_length (numDecks : Nat) :
    (createStackBase numDecks).length = numDecks * 52 := by
  induction numDecks with
  | zero => rfl
  | succ n ih =>
    rw [createStackBase, List.replicate_succ, List.flatten_cons, List.length_append]
    rw [createStackBase] at ih
    rw [ih, show oneDeck.length = 52 from rfl]
    ring

/-- Each card of a single deck occurs exactly once in it. -/
lemma oneDeck_count : ∀ suit ∈ SUITS, ∀ num ∈ List.range' 1 13,
    oneDeck.countP (fun x => decide (x = Card.mk suit (num : ℤ))) = 1 := by
  decide

/-- Each valid (suit, number) pair occurs exactly `numDecks` times in the
unshuffled stack. -/
lemma createStackBase_count (numDecks : Nat) :
    ∀ suit ∈ SUITS, ∀ num ∈ List.range' 1 13,
      (createStackBase numDecks).countP (fun x => decide (x = Card.mk suit (num : ℤ)))
        = numDecks := by
  intro suit hs num hn
  induction numDecks with
  | zero => rfl
  | succ n ih =>
    rw [createStackBase, List.replicate_succ, List.flatten_cons, List.countP_append]
    rw [createStackBase] at ih
    rw [ih, oneDeck_count suit hs num hn]
    omega

/-- On cards whose rank is at least 1 (all real cards), the code's clip
to `[1, 10]` agrees with the spec's `min(rank, 10)` on the non-Ace part. -/
lemma nonAceSumOf_eq_spec (stack : List Card) (hv : ∀ c ∈ stack, 1 ≤ c.number) :
    nonAceSumOf stack = specNonAceSum stack := by
  unfold nonAceSumOf specNonAceSum calculateNoAces nonAceNumbers
  rw [List.map_map]
  apply congrArg
  apply List.map_congr_left
  intro c hc
  have h1 : 1 ≤ c.number := hv c (List.mem_of_mem_filter hc)
  simp only [Function.comp_apply, clip]
  omega

/-- With no Aces in the hand, the non-Ace filter keeps every card. -/
lemma filter_nonAce_of_no_aces (stack : List Card) (h : numAcesOf stack = 0) :
    stack.filter (fun c => c.number != 1) = stack := by
  unfold numAcesOf at h
  have hall := List.countP_eq_zero.mp (by rw [List.countP_eq_length_filter]; exact h)
  apply List.filter_eq_self.mpr
  intro c hc
  have := hall c hc
  simpa using this

/-! ### Claim theorems -/

/-- C1 (corrected): the greedy Ace loop is NOT Blackjack-optimal in
general.  The counterexample instantiates the claim's own test vector:
`evaluate([Ace, Ace, Ace, Ace, 8])` is 22, not the claimed 21, even though
an assignment of the Aces totalling 12 stays below 21 (so the claimed
"maximum total not exceeding 21" is also violated, since 22 > 21). -/
theorem blackjack_C1_counterexample :
    calculateStackSum [Card.mk "Spades" 1, Card.mk "Hearts" 1, Card.mk "Clubs" 1,
        Card.mk "Diamonds" 1, Card.mk "Spades" 8] = 22 ∧
    (22 : ℤ) ≠ 21 ∧
    isAceAssignmentTotal [Card.mk "Spades" 1, Card.mk "Hearts" 1, Card.mk "Clubs" 1,
        Card.mk "Diamonds" 1, Card.mk "Spades" 8] 12 ∧ (12 : ℤ) ≤ 21 := by
  refine ⟨by decide, by decide, ⟨0, by decide, by decide⟩, by decide⟩

/-- C1 (amended): `evaluate` returns the clipped non-Ace sum plus the
greedy per-Ace assignment; this equals the maximum assignment total not
exceeding 21 whenever some assignment stays at or below 21, EXCEPT in the
overshoot region `numAces ≥ 2 ∧ s ≤ 10 ∧ s + numAces ≥ 12` (there the
greedy gives `s + numAces + 10 > 21` although `s + numAces ≤ 21` may be
achievable).  In particular `evaluate([Ace, Ace]) = 12`, but
`evaluate([Ace, Ace, Ace, Ace, 8]) = 22`, not 21. -/
theorem blackjack_C1 :
    (∀ stack : List Card,
      ¬(2 ≤ numAcesOf stack ∧ nonAceSumOf stack ≤ 10 ∧
          12 ≤ nonAceSumOf stack + (numAcesOf stack : ℤ)) →
      ∀ t : ℤ, isAceAssignmentTotal stack t → t ≤ 21 →
        isAceAssignmentTotal stack (calculateStackSum stack) ∧
        calculateStackSum stack ≤ 21 ∧ t ≤ calculateStackSum stack) ∧
    calculateStackSum [Card.mk "Spades" 1, Card.mk "Hearts" 1] = 12 ∧
    calculateStackSum [Card.mk "Spades" 1, Card.mk "Hearts" 1, Card.mk "Clubs" 1,
        Card.mk "Diamonds" 1, Card.mk "Spades" 8] = 22 := by
  refine ⟨?_, by decide, by decide⟩
  intro stack hbad t ht hle
  obtain ⟨k, hk, rfl⟩ := ht
  have hs := nonAceSumOf_nonneg stack
  rw [calculateStackSum_closed]
  by_cases h : 1 ≤ numAcesOf stack ∧ nonAceSumOf stack ≤ 10
  · rw [if_pos h]
    obtain ⟨h1, h2⟩ := h
    refine ⟨⟨1, h1, by push_cast; ring⟩, by omega, by omega⟩
  · rw [if_neg h]
    refine ⟨⟨0, Nat.zero_le _, by push_cast; ring⟩, by omega, by omega⟩

/-- Witness for C1: on the one-card hand `[9 of Spades]` (no Aces), the
evaluator's result is itself an assignment total, stays at or below 21,
and dominates the assignment total 9. -/
theorem blackjack_C1_witness :
    isAceAssignmentTotal [Card.mk "Spades" 9]
        (calculateStackSum [Card.mk "Spades" 9]) ∧
    calculateStackSum [Card.mk "Spades" 9] ≤ 21 ∧
    (9 : ℤ) ≤ calculateStackSum [Card.mk "Spades" 9] :=
  blackjack_C1.1 [Card.mk "Spades" 9] (by decide) 9 ⟨0, by decide, by decide⟩ (by decide)

/-- C2 (confirmed): `_compute_winner` implements the seven-rule
first-match decision order ('NONE' = PUSH, 'DEALER' = DEALER_WINS,
'PLAYER' = PLAYER_WINS): 21/21 pushes; dealer 21 alone wins; dealer below
21 and above player wins; a busted player loses even to a busted dealer;
otherwise player 21 wins; dealer below player below 21 wins for the
player; everything else pushes — including the five quoted instances. -/
theorem blackjack_C2 (d p : ℤ) :
    (d = 21 ∧ p = 21 → computeWinner d p = "NONE") ∧
    (d = 21 ∧ p ≠ 21 → computeWinner d p = "DEALER") ∧
    (d < 21 ∧ p < d → computeWinner d p = "DEALER") ∧
    (21 < p → computeWinner d p = "DEALER") ∧
    (d ≠ 21 ∧ p = 21 → computeWinner d p = "PLAYER") ∧
    (d < p ∧ p < 21 → computeWinner d p = "PLAYER") ∧
    (d ≠ 21 ∧ ¬(d < 21 ∧ p < d) ∧ ¬(21 < p) ∧ p ≠ 21 ∧ ¬(d < p ∧ p < 21) →
      computeWinner d p = "NONE") ∧
    computeWinner 21 21 = "NONE" ∧
    computeWinner 21 17 = "DEALER" ∧
    computeWinner 18 22 = "DEALER" ∧
    computeWinner 17 19 = "PLAYER" ∧
    computeWinner 22 23 = "DEALER" := by
  refine ⟨?_, ?_, ?_, ?_, ?_, ?_, ?_, by decide, by decide, by decide, by decide, by decide⟩ <;>
  · intro h
    unfold computeWinner
    split_ifs <;> first | rfl | (exfalso; omega)

/-- Witness for C2: the bust-vs-bust house rule at (22, 23). -/
theorem blackjack_C2_witness : computeWinner 22 23 = "DEALER" :=
  (blackjack_C2 22 23).2.2.2.1 (by decide)

/-- C3 (confirmed): on hands of real cards (rank at least 1) with at most
one Ace, the evaluator matches the reference formula: with no Aces it is
the uncapped sum of `min(rank, 10)` over all cards (so the empty hand
gives 0); with exactly one Ace and spec non-Ace sum `s` it is `s + 11`
when `s + 11 ≤ 21` and `s + 1` otherwise. -/
theorem blackjack_C3 (stack : List Card) (hv : ∀ c ∈ stack, 1 ≤ c.number) :
    (numAcesOf stack = 0 →
      calculateStackSum stack = (stack.map (fun c => min c.number 10)).sum) ∧
    (numAcesOf stack = 1 →
      calculateStackSum stack =
        if specNonAceSum stack + 11 ≤ 21 then specNonAceSum stack + 11
        else specNonAceSum stack + 1) ∧
    calculateStackSum [] = 0 := by
  refine ⟨?_, ?_, rfl⟩
  · intro h0
    rw [calculateStackSum_closed, nonAceSumOf_eq_spec stack hv, h0,
      if_neg (by simp), specNonAceSum, filter_nonAce_of_no_aces stack h0]
    push_cast
    ring
  · intro h1
    rw [calculateStackSum_closed, nonAceSumOf_eq_spec stack hv, h1]
    by_cases hle : specNonAceSum stack ≤ 10
    · rw [if_pos ⟨le_refl 1, hle⟩, if_pos (by omega)]
      push_cast
      ring
    · rw [if_neg (fun hc => hle hc.2), if_neg (by omega)]
      push_cast
      ring

/-- Witness for C3: the Ace-free hand `[King of Spades, 2 of Hearts]`
evaluates to the plain clipped sum. -/
theorem blackjack_C3_witness :
    calculateStackSum [Card.mk "Spades" 13, Card.mk "Hearts" 2]
      = (([Card.mk "Spades" 13, Card.mk "Hearts" 2]).map (fun c => min c.number 10)).sum :=
  (blackjack_C3 [Card.mk "Spades" 13, Card.mk "Hearts" 2] (by decide)).1 (by decide)

/-- C4 (confirmed): `dealer_draw` on a dealer hand below 17 pops exactly
the last deck card, appends it to the dealer's stack and returns `False`;
at 17 or above it returns `True` and changes nothing — the dealer never
hits on 17 or above. -/
theorem blackjack_C4 (s : GameState) :
    (calculateStackSum s.dealerStack < 17 →
      ∀ (deck' : List Card) (c : Card), s.cardStack = deck' ++ [c] →
        dealerDraw s =
          Except.ok ({ s with cardStack := deck',
                              dealerStack := s.dealerStack ++ [c] }, false)) ∧
    (17 ≤ calculateStackSum s.dealerStack → dealerDraw s = Except.ok (s, true)) := by
  constructor
  · intro hlt deck' c hdeck
    unfold dealerDraw
    rw [if_pos hlt, drawCard_ok_iff.mpr hdeck]
  · intro hge
    unfold dealerDraw
    rw [if_neg (by omega)]

/-- Witness for C4: a dealer with an empty hand (sum 0 < 17) draws the
single deck card. -/
theorem blackjack_C4_witness :
    dealerDraw (GameState.mk 1 1 [Card.mk "Spades" 5] [] [[]] [false] 0)
      = Except.ok (GameState.mk 1 1 [] [Card.mk "Spades" 5] [[]] [false] 0, false) :=
  (blackjack_C4 (GameState.mk 1 1 [Card.mk "Spades" 5] [] [[]] [false] 0)).1
    (by decide) [] (Card.mk "Spades" 5) rfl

/-- C5 (corrected): `player_draw` on an already-done player raises nothing
and DOES mutate that player's hand: with player 0 marked done, the call
succeeds, pops the deck card and appends it to player 0's stack. -/
theorem blackjack_C5_counterexample :
    (GameState.mk 1 1 [Card.mk "Spades" 5] [] [[Card.mk "Hearts" 9]] [true] 0).playerDones
        = [true] ∧
    playerDraw (GameState.mk 1 1 [Card.mk "Spades" 5] [] [[Card.mk "Hearts" 9]] [true] 0) 0
      = Except.ok
          (GameState.mk 1 1 [] [] [[Card.mk "Hearts" 9, Card.mk "Spades" 5]] [true] 0,
            Card.mk "Spades" 5) :=
  ⟨rfl, rfl⟩

/-- C5 (amended): `player_draw` performs no validation at all: for any
in-range index — even a player already marked done — it pops one card,
appends it to that player's hand and returns the card; it fails only with
Python's `IndexError` (never an `InvalidPlayerError`) when the deck is
empty or the index is out of range. -/
theorem blackjack_C5_amended (s : GameState) (idx : Nat) :
    (∀ (deck' : List Card) (c : Card) (stack : List Card),
      s.cardStack = deck' ++ [c] → s.playerStacks.get? idx = some stack →
      playerDraw s idx =
        Except.ok ({ s with cardStack := deck',
                            playerStacks := s.playerStacks.set idx (stack ++ [c]) }, c)) ∧
    (s.cardStack = [] → playerDraw s idx = Except.error PyError.indexError) ∧
    (s.playerStacks.length ≤ idx → s.cardStack ≠ [] →
      playerDraw s idx = Except.error PyError.indexError) := by
  refine ⟨?_, ?_, ?_⟩
  · intro deck' c stack hdeck hget
    unfold playerDraw
    rw [drawCard_ok_iff.mpr hdeck, hget]
  · intro hnil
    unfold playerDraw drawCard
    rw [hnil]
    rfl
  · intro hlen hne
    rcases List.eq_nil_or_concat' s.cardStack with hnil | ⟨l, b, hconcat⟩
    · exact absurd hnil hne
    · unfold playerDraw
      rw [drawCard_ok_iff.mpr hconcat, List.get?_eq_none.mpr hlen]

/-- Witness for C5: drawing for player 0 from an empty deck fails with
`IndexError`. -/
theorem blackjack_C5_witness :
    playerDraw (GameState.mk 1 1 [] [] [[]] [false] 0) 0
      = Except.error PyError.indexError :=
  (blackjack_C5_amended (GameState.mk 1 1 [] [] [[]] [false] 0) 0).2.1 rfl

/-- C6 (corrected): the constructor never fails.  At `numDecks = 0` (the
claim's `< 1` regime) `_create_stack` happily returns an empty list and
`__init__` builds a game state — no `InvalidConfigError` exists or is
raised, for any argument. -/
theorem blackjack_C6_counterexample :
    createStackBase 0 = ([] : List Card) ∧
    mkBlackjack id 0 0 = GameState.mk 0 0 [] [] [] [] 0 :=
  ⟨rfl, rfl⟩

/-- C6 (amended): `__init__` is total: for every `numDecks` and
`numPlayers` (including 0) it constructs a state with `numDecks * 52`
cards in the shuffled stack, `numPlayers` empty player stacks and
`numPlayers` false done-flags; deck construction never fails either. -/
theorem blackjack_C6_amended (shuffle : List Card → List Card)
    (hperm : ∀ l, (shuffle l).Perm l) (numDecks numPlayers : Nat) :
    (mkBlackjack shuffle numDecks numPlayers).cardStack.length = numDecks * 52 ∧
    (mkBlackjack shuffle numDecks numPlayers).playerStacks = List.replicate numPlayers [] ∧
    (mkBlackjack shuffle numDecks numPlayers).playerDones = List.replicate numPlayers false := by
  refine ⟨?_, rfl, rfl⟩
  show (shuffle (createStackBase numDecks)).length = numDecks * 52
  rw [(hperm (createStackBase numDecks)).length_eq, createStackBase_length]

/-- Witness for C6: a 2-deck, 3-player game has 104 cards, 3 empty hands
and 3 false done-flags. -/
theorem blackjack_C6_witness :
    (mkBlackjack id 2 3).cardStack.length = 2 * 52 ∧
    (mkBlackjack id 2 3).playerStacks = List.replicate 3 [] ∧
    (mkBlackjack id 2 3).playerDones = List.replicate 3 false :=
  blackjack_C6_amended id (fun l => List.Perm.refl l) 2 3

/-- C7 (corrected): drawing from an exhausted deck fails with Python's
`IndexError` (from `list.pop()`), not with the `EmptyDeckError` the claim
names — no such class exists in the code. -/
theorem blackjack_C7_counterexample :
    drawCard [] = Except.error PyError.indexError ∧
    PyError.indexError ≠ PyError.emptyDeckError :=
  ⟨rfl, by decide⟩

/-- C7 (amended): `_draw_card` has pop semantics — on a non-empty deck it
removes and returns the card at the position last added and the deck
shrinks by exactly one; on an empty deck it fails with `IndexError`
(rather than a dedicated `EmptyDeckError`), returning no altered deck. -/
theorem blackjack_C7_amended (deck : List Card) :
    (∀ (deck' : List Card) (c : Card), deck = deck' ++ [c] →
      drawCard deck = Except.ok (c, deck') ∧ deck'.length + 1 = deck.length) ∧
    (deck = [] → drawCard deck = Except.error PyError.indexError) := by
  constructor
  · intro deck' c h
    refine ⟨drawCard_ok_iff.mpr h, ?_⟩
    rw [h, List.length_append, List.length_singleton]
  · rintro rfl
    rfl

/-- Witness for C7: popping from a two-card deck returns the last card
and the one-card remainder. -/
theorem blackjack_C7_witness :
    drawCard [Card.mk "Spades" 2, Card.mk "Hearts" 3]
      = Except.ok (Card.mk "Hearts" 3, [Card.mk "Spades" 2]) ∧
    ([Card.mk "Spades" 2] : List Card).length + 1
      = ([Card.mk "Spades" 2, Card.mk "Hearts" 3] : List Card).length :=
  (blackjack_C7_amended [Card.mk "Spades" 2, Card.mk "Hearts" 3]).1
    [Card.mk "Spades" 2] (Card.mk "Hearts" 3) rfl

/-- C8 (confirmed): `_create_stack(numDecks)` builds exactly
`numDecks * 52` cards — each of the 4 suits paired with each rank 1
through 13, `numDecks` times (`random.shuffle` only permutes, so these
counts hold for the shuffled stack as well) — and every successful
operation (dealer draw, player draw, full initial deal) preserves the
combined multiset of cards across deck and hands: a drawn card moves,
and is never duplicated or regenerated. -/
theorem blackjack_C8 :
    (∀ numDecks : Nat, (createStackBase numDecks).length = numDecks * 52) ∧
    (∀ numDecks : Nat, ∀ suit ∈ SUITS, ∀ num ∈ List.range' 1 13,
      (createStackBase numDecks).countP
        (fun x => decide (x = Card.mk suit (num : ℤ))) = numDecks) ∧
    (∀ (s s' : GameState) (b : Bool),
      dealerDraw s = Except.ok (s', b) → allCards s' = allCards s) ∧
    (∀ (s : GameState) (idx : Nat) (s' : GameState) (c : Card),
      playerDraw s idx = Except.ok (s', c) → allCards s' = allCards s) ∧
    (∀ s s' : GameState, initialDeal s = Except.ok s' → allCards s' = allCards s) :=
  ⟨createStackBase_length, createStackBase_count,
    fun _ _ _ h => dealerDraw_allCards h,
    fun _ _ _ _ h => playerDraw_allCards h,
    fun _ _ h => initialDeal_allCards h⟩

/-- Witness for C8: one concrete dealer draw moves the 5 of Spades from
the deck to the dealer's stack without changing the combined multiset. -/
theorem blackjack_C8_witness :
    allCards (GameState.mk 1 1 [] [Card.mk "Spades" 5] [[]] [false] 0)
      = allCards (GameState.mk 1 1 [Card.mk "Spades" 5] [] [[]] [false] 0) :=
  blackjack_C8.2.2.1 (GameState.mk 1 1 [Card.mk "Spades" 5] [] [[]] [false] 0)
    (GameState.mk 1 1 [] [Card.mk "Spades" 5] [[]] [false] 0) false rfl

/-- C9 (confirmed): the hand evaluator is permutation-invariant — it
depends only on the number of Aces and the multiset of non-Ace ranks. -/
theorem blackjack_C9 (s1 s2 : List Card) (h : s1.Perm s2) :
    calculateStackSum s1 = calculateStackSum s2 := by
  have hace : numAcesOf s1 = numAcesOf s2 := by
    unfold numAcesOf
    exact (h.filter (fun c => c.number == 1)).length_eq
  have hsum : nonAceSumOf s1 = nonAceSumOf s2 := by
    unfold nonAceSumOf calculateNoAces nonAceNumbers
    exact (((h.filter (fun c => c.number != 1)).map (fun c => c.number)).map clip).sum_eq
  unfold calculateStackSum
  rw [hace, hsum]

/-- Witness for C9: swapping the two cards of `[Ace of Spades, 7 of
Hearts]` leaves the evaluated sum unchanged. -/
theorem blackjack_C9_witness :
    calculateStackSum [Card.mk "Spades" 1, Card.mk "Hearts" 7]
      = calculateStackSum [Card.mk "Hearts" 7, Card.mk "Spades" 1] :=
  blackjack_C9 [Card.mk "Spades" 1, Card.mk "Hearts" 7]
    [Card.mk "Hearts" 7, Card.mk "Spades" 1]
    (List.Perm.swap (Card.mk "Hearts" 7) (Card.mk "Spades" 1) [])

/-- C10 (confirmed): the greedy loop equals the closed form — writing `s`
for the clipped non-Ace sum and `n` for the number of Aces, the evaluated
sum is `s + n + 10` when `n ≥ 1` and `s ≤ 10`, and `s + n` otherwise; in
particular at most one Ace is ever counted as 11. -/
theorem blackjack_C10 (stack : List Card) :
    calculateStackSum stack =
      if 1 ≤ numAcesOf stack ∧ nonAceSumOf stack ≤ 10
      then nonAceSumOf stack + (numAcesOf stack : ℤ) + 10
      else nonAceSumOf stack + (numAcesOf stack : ℤ) :=
  calculateStackSum_closed stack
